import Mathlib

/-!
Verification of the TWSE strong-stock screener
(`find_strong_stocks_action.py`) against its specification.

The development shallowly embeds the two core components of the script:

* the Universe Builder (`fetch_twse_table`, `extract_top300`, with the cell
  normalizers `to_num` and `to_price`), and
* the Strength Evaluator (`is_strong_stock` with its five boolean
  conditions).

Modelling conventions:

* Python / numpy floating point values are idealized as exact rationals
  extended with `+inf`, `-inf` and `NaN` (the type `PyFloat` below).
  Binary rounding, overflow to infinity and the sign of zero are not
  modelled; none of the verified claims depends on them.
* Rationals are represented by the kernel-friendly type `Q` (an integer
  numerator and a positive denominator, stored as denominator minus one,
  so that every inhabitant is well formed).  The map `Q.val` into
  Mathlib rationals is used in proofs only.
* Strings are processed as character lists with structural recursion so
  that all definitions evaluate inside the kernel.  Python `str.strip`
  is modelled on the common ASCII whitespace characters; exotic Unicode
  whitespace is not modelled.
* An uncaught Python exception is modelled as `Except.error`.
-/

/-! ### A kernel-computable rational type -/

/-- A rational number: numerator `num` over denominator `dm1 + 1`.
Storing the denominator minus one makes every inhabitant well formed
(the denominator is always positive), which keeps the order relations
below total and transitive on the whole type. -/
structure Q where
  num : Int
  dm1 : Nat
deriving DecidableEq

namespace Q

/-- The (always positive) denominator, as an integer. -/
def den (q : Q) : Int := (q.dm1 : Int) + 1

/-- The (always positive) denominator, as a natural number. -/
def denN (q : Q) : Nat := q.dm1 + 1

/-- Embed an integer. -/
def ofInt (n : Int) : Q := ⟨n, 0⟩

instance (n : Nat) : OfNat Q n := ⟨⟨(n : Int), 0⟩⟩

/-- Build `n / d`; for `d = 0` this degenerates to `n / 1` (never used
with `d = 0` below). -/
def mkD (n : Int) (d : Nat) : Q := ⟨n, d - 1⟩

def add (a b : Q) : Q := ⟨a.num * b.den + b.num * a.den, a.denN * b.denN - 1⟩

def neg (a : Q) : Q := ⟨-a.num, a.dm1⟩

def sub (a b : Q) : Q := add a (neg b)

def mul (a b : Q) : Q := ⟨a.num * b.num, a.denN * b.denN - 1⟩

/-- Multiplicative inverse; `inv 0` is junk (callers guard on `num = 0`). -/
def inv (a : Q) : Q :=
  if 0 < a.num then ⟨a.den, a.num.toNat - 1⟩
  else if a.num < 0 then ⟨-a.den, (-a.num).toNat - 1⟩
  else ⟨0, 0⟩

def div (a b : Q) : Q := mul a (inv b)

/-- Order by cross multiplication (denominators are positive). -/
def le (a b : Q) : Prop := a.num * b.den ≤ b.num * a.den

def lt (a b : Q) : Prop := a.num * b.den < b.num * a.den

/-- Value equality (representation independent). -/
def qeq (a b : Q) : Prop := a.num * b.den = b.num * a.den

instance : DecidableRel le := fun a b => by unfold le; infer_instance
instance : DecidableRel lt := fun a b => by unfold lt; infer_instance
instance : DecidableRel qeq := fun a b => by unfold qeq; infer_instance

/-- Interpretation into the Mathlib rationals; used in proofs only. -/
def val (q : Q) : ℚ := (q.num : ℚ) / (q.den : ℚ)

end Q

/-! ### IEEE-style extended values

`PyFloat` idealizes a Python / numpy float64: an exact rational, one of
the two infinities, or NaN.  Arithmetic follows IEEE-754 semantics
(`inf - inf = nan`, `x / 0` with `x > 0` gives `inf`, comparisons with
NaN are false); binary rounding and overflow are not modelled. -/

inductive PyFloat where
  | finite (q : Q)
  | pinf
  | ninf
  | nan
deriving DecidableEq

namespace PyFloat

def isNaN : PyFloat → Bool
  | nan => true
  | _ => false

def neg : PyFloat → PyFloat
  | finite q => finite q.neg
  | pinf => ninf
  | ninf => pinf
  | nan => nan

def add : PyFloat → PyFloat → PyFloat
  | finite a, finite b => finite (a.add b)
  | finite _, pinf => pinf
  | finite _, ninf => ninf
  | pinf, finite _ => pinf
  | ninf, finite _ => ninf
  | pinf, pinf => pinf
  | ninf, ninf => ninf
  | _, _ => nan

def sub (a b : PyFloat) : PyFloat := add a (neg b)

def mul : PyFloat → PyFloat → PyFloat
  | finite a, finite b => finite (a.mul b)
  | finite a, pinf => if 0 < a.num then pinf else if a.num < 0 then ninf else nan
  | finite a, ninf => if 0 < a.num then ninf else if a.num < 0 then pinf else nan
  | pinf, finite b => if 0 < b.num then pinf else if b.num < 0 then ninf else nan
  | ninf, finite b => if 0 < b.num then ninf else if b.num < 0 then pinf else nan
  | pinf, pinf => pinf
  | ninf, ninf => pinf
  | pinf, ninf => ninf
  | ninf, pinf => ninf
  | _, _ => nan

/-- numpy float64 division: division by zero yields a signed infinity
(or NaN for `0/0`) with a warning, not an exception. -/
def div : PyFloat → PyFloat → PyFloat
  | finite a, finite b =>
    if b.num = 0 then (if 0 < a.num then pinf else if a.num < 0 then ninf else nan)
    else finite (a.div b)
  | finite _, pinf => finite 0
  | finite _, ninf => finite 0
  | pinf, finite b => if b.num < 0 then ninf else pinf
  | ninf, finite b => if b.num < 0 then pinf else ninf
  | _, _ => nan

/-- Strict less-than; false whenever either side is NaN. -/
def ltB : PyFloat → PyFloat → Bool
  | finite a, finite b => decide (a.lt b)
  | finite _, pinf => true
  | ninf, finite _ => true
  | ninf, pinf => true
  | _, _ => false

/-- Non-strict comparison; false whenever either side is NaN. -/
def leB : PyFloat → PyFloat → Bool
  | finite a, finite b => decide (a.le b)
  | finite _, pinf => true
  | ninf, finite _ => true
  | ninf, pinf => true
  | pinf, pinf => true
  | ninf, ninf => true
  | _, _ => false

/-- Fold-left sum, as in a pandas window aggregation. -/
def psum (l : List PyFloat) : PyFloat := l.foldl add (finite 0)

/-- Maximum skipping NaN (pandas `Series.max` with default `skipna`);
NaN when no non-NaN value exists. -/
def pmax (l : List PyFloat) : PyFloat :=
  l.foldl (fun acc x =>
    if x.isNaN then acc
    else if acc.isNaN then x
    else if ltB acc x then x else acc) nan

/-- Round half to even at scale `s` (the integer nearest `q * s`,
ties to even). -/
def rheScaled (q : Q) (s : Int) : Int :=
  let p := q.mul (Q.ofInt s)
  let n := Int.fdiv p.num p.den
  let r := p.num - n * p.den
  if 2 * r < p.den then n
  else if p.den < 2 * r then n + 1
  else if n % 2 = 0 then n else n + 1

/-- `round(x, 3)` on floats, idealized over exact rationals. -/
def round3 : PyFloat → PyFloat
  | finite q => finite (Q.mkD (rheScaled q 1000) 1000)
  | x => x

/-- `round(x, 2)` on floats, idealized over exact rationals. -/
def round2 : PyFloat → PyFloat
  | finite q => finite (Q.mkD (rheScaled q 100) 100)
  | x => x

end PyFloat

/-! ### Character-list string utilities

Python string operations used by the script, modelled on `List Char`
with structural (or fuel-based, hence kernel-reducible) recursion. -/

/-- Whitespace stripped by Python `str.strip` (ASCII subset). -/
def pyWS (c : Char) : Bool :=
  c = ' ' || c = '\t' || c = '\n' || c = '\r' || c = '\x0b' || c = '\x0c'

/-- Python `str.strip()`: drop leading and trailing whitespace. -/
def trimChars (cs : List Char) : List Char :=
  ((cs.dropWhile pyWS).reverse.dropWhile pyWS).reverse

/-- One step of Python `str.replace`: scan left to right, replacing
non-overlapping occurrences.  `fuel` bounds the recursion (callers pass
the list length plus one; each step consumes at least one character
when the pattern is nonempty). -/
def replChars (pat rep : List Char) : Nat → List Char → List Char
  | _, [] => []
  | 0, s => s
  | fuel + 1, c :: t =>
    if pat.isPrefixOf (c :: t) && !pat.isEmpty then
      rep ++ replChars pat rep fuel ((c :: t).drop pat.length)
    else c :: replChars pat rep fuel t

/-- Python `str.replace` on strings. -/
def pyReplace (s pat rep : String) : String :=
  ⟨replChars pat.data rep.data (s.data.length + 1) s.data⟩

/-- Python `str.strip` on strings. -/
def pyStrip (s : String) : String := ⟨trimChars s.data⟩

/-- Python `sub in s` (substring containment). -/
def containsSubChars (pat : List Char) : List Char → Bool
  | [] => pat.isEmpty
  | c :: t => pat.isPrefixOf (c :: t) || containsSubChars pat t

/-- Python `pat in s` on strings. -/
def containsSub (s pat : String) : Bool := containsSubChars pat.data s.data

/-- Scan forward for the first `>`; `none` when a newline intervenes or
no `>` exists (the regex dot does not match a newline, so the tag match
fails in those cases). -/
def dropTag : List Char → Option (List Char)
  | [] => none
  | c :: cs => if c = '>' then some cs else if c = '\n' then none else dropTag cs

/-- Removal of `<...>` markup, as the non-greedy regex substitution of
the source does: at each `<` delete through the first following `>`
(the non-greedy match), otherwise keep the character.  `fuel` bounds
the recursion; each step consumes at least one character. -/
def stripTagsChars : Nat → List Char → List Char
  | _, [] => []
  | 0, s => s
  | fuel + 1, c :: cs =>
    if c = '<' then
      match dropTag cs with
      | some r => stripTagsChars fuel r
      | none => c :: stripTagsChars fuel cs
    else c :: stripTagsChars fuel cs

/-- HTML-tag removal on strings (`.str.replace(regex) ` in the source). -/
def stripTags (s : String) : String := ⟨stripTagsChars (s.data.length + 1) s.data⟩

/-! ### Python `float(...)` literal parsing

The grammar accepted by the Python `float` constructor on the strings
that reach it in this script: optional sign; `inf`, `infinity` or `nan`
(case insensitive); or a decimal mantissa with optional fraction and
exponent, with underscores allowed between digits.  Unicode digits and
float overflow to infinity are not modelled (no verified claim depends
on them). -/

def digitVal? (c : Char) : Option Nat :=
  if c.isDigit then some (c.toNat - 48) else none

/-- Continue a digit run: digits, with each underscore surrounded by
digits.  Accumulates the value and the digit count. -/
def runGo (v : Nat) (n : Nat) : List Char → Option (Nat × Nat)
  | [] => some (v, n)
  | c :: cs =>
    if c = '_' then
      match cs with
      | d :: cs2 =>
        match digitVal? d with
        | some k => runGo (v * 10 + k) (n + 1) cs2
        | none => none
      | [] => none
    else
      match digitVal? c with
      | some k => runGo (v * 10 + k) (n + 1) cs
      | none => none

/-- A nonempty digit run with underscores; value and digit count. -/
def runVal : List Char → Option (Nat × Nat)
  | [] => none
  | c :: cs =>
    match digitVal? c with
    | some k => runGo k 1 cs
    | none => none

/-- Split at the first `e` or `E`. -/
def splitE : List Char → List Char × Option (List Char)
  | [] => ([], none)
  | c :: cs =>
    if c = 'e' || c = 'E' then ([], some cs)
    else
      let r := splitE cs
      (c :: r.1, r.2)

/-- Split at the first dot. -/
def splitDot : List Char → List Char × Option (List Char)
  | [] => ([], none)
  | c :: cs =>
    if c = '.' then ([], some cs)
    else
      let r := splitDot cs
      (c :: r.1, r.2)

/-- Mantissa: `digits`, `digits.`, `.digits` or `digits.digits`. -/
def parseMantissa (cs : List Char) : Option Q :=
  let p := splitDot cs
  match p.2 with
  | none => (runVal p.1).map (fun v => Q.ofInt (v.1 : Int))
  | some fp =>
    match p.1, fp with
    | [], [] => none
    | [], _ =>
      (runVal fp).map (fun v => Q.mkD (v.1 : Int) (10 ^ v.2))
    | _, [] => (runVal p.1).map (fun v => Q.ofInt (v.1 : Int))
    | _, _ =>
      match runVal p.1, runVal fp with
      | some a, some b =>
        some (Q.mkD ((a.1 : Int) * (10 ^ b.2 : Nat) + (b.1 : Int)) (10 ^ b.2))
      | _, _ => none

/-- Exponent: optional sign and a digit run. -/
def parseExp (cs : List Char) : Option Int :=
  match cs with
  | '+' :: r => (runVal r).map (fun v => (v.1 : Int))
  | '-' :: r => (runVal r).map (fun v => -(v.1 : Int))
  | r => (runVal r).map (fun v => (v.1 : Int))

/-- Scale a rational by a power of ten (positive or negative). -/
def scalePow10 (q : Q) (e : Int) : Q :=
  if 0 ≤ e then ⟨q.num * (10 ^ e.toNat : Nat), q.dm1⟩
  else ⟨q.num, q.denN * (10 ^ (-e).toNat : Nat) - 1⟩

/-- Unsigned part of the Python float grammar. -/
def parseUnsigned (cs : List Char) : Option PyFloat :=
  let low := cs.map Char.toLower
  if low = ['i', 'n', 'f'] then some .pinf
  else if low = ['i', 'n', 'f', 'i', 'n', 'i', 't', 'y'] then some .pinf
  else if low = ['n', 'a', 'n'] then some .nan
  else
    let p := splitE cs
    match p.2 with
    | none => (parseMantissa p.1).map .finite
    | some e =>
      match parseMantissa p.1, parseExp e with
      | some q, some z => some (.finite (scalePow10 q z))
      | _, _ => none

/-- Python `float(s)`: `none` models a `ValueError`. -/
def pyFloat? (s : String) : Option PyFloat :=
  match trimChars s.data with
  | '+' :: r => parseUnsigned r
  | '-' :: r => (parseUnsigned r).map PyFloat.neg
  | r => parseUnsigned r

/-! ### Cell normalizers (`to_num`, `to_price`)

Source, lines 95-104: both remove thousands separators, replace the
no-trade placeholder `--` by `0`, strip, then call `float`; a parse
failure yields `0.0` for volumes and NaN for prices. -/

/-- `str(x).replace(",", "").replace("--", "0").strip()`. -/
def normalizeCell (x : String) : String :=
  pyStrip (pyReplace (pyReplace x (",") ("")) ("--") ("0"))

/-- Volume cell parser (`to_num` in the source): parse failures yield `0.0`. -/
def to_num (x : String) : PyFloat :=
  (pyFloat? (normalizeCell x)).getD (.finite 0)

/-- Price cell parser (`to_price` in the source): parse failures yield NaN. -/
def to_price (x : String) : PyFloat :=
  (pyFloat? (normalizeCell x)).getD .nan

/-! ### Universe Builder data model -/

/-- A raw provider table: declared field names plus rows of cells.
Cells are kept as strings, as delivered by the TWSE endpoint. -/
structure RawTable where
  fields : List String
  rows : List (List String)
deriving DecidableEq

/-- A normalized row (code, name, share volume, closing price) before
ranking; `vol` and `close` use the float model. -/
structure NRow where
  code : String
  name : String
  vol : PyFloat
  close : PyFloat
deriving DecidableEq

/-- A member of the emitted universe (source columns 證券代號, 證券名稱,
成交股數, 收盤價, 成交張數). -/
structure Instrument where
  code : String
  name : String
  volume_shares : PyFloat
  close_price : PyFloat
  volume_lots : PyFloat
deriving DecidableEq

/-- The category-exclusion denylist of the source (line 106). -/
def exclude_name_keywords : List String :=
  ["ETF", "權證", "DR", "受益證券", "基金", "富邦", "元大", "國泰", "群益",
   "永豐", "台新", "銀行", "金控", "金融", "證券", "保險"]

/-- Row filter: keep a row iff its name contains no denylist keyword
(the regex alternation of the source contains only literals). -/
def keepRow (r : NRow) : Bool :=
  !(exclude_name_keywords.any (fun kw => containsSub r.name kw))

/-- Index of the last field whose (stripped) label contains `pat`; the
source loop overwrites earlier matches, so the last match wins.  The
later label-based column selection is modelled by this position (the
two differ only when distinct columns carry an identical label, where
the label selection of pandas would not yield a single column). -/
def lastIdxWith (fields : List String) (pat : String) : Option Nat :=
  fields.enum.foldl
    (fun acc p => if containsSub p.2 pat then some p.1 else acc) none

/-- Resolved positions of the four semantic columns. -/
structure ColIdx where
  codeIdx : Nat
  nameIdx : Nat
  volIdx : Nat
  closeIdx : Nat
deriving DecidableEq

/-- Column resolution by substring match against the four known labels
(source lines 80-88). -/
def resolveCols (fields : List String) : Option ColIdx :=
  match lastIdxWith fields ("證券代號"), lastIdxWith fields ("證券名稱"),
      lastIdxWith fields ("成交股數"), lastIdxWith fields ("收盤價") with
  | some a, some b, some c, some d => some ⟨a, b, c, d⟩
  | _, _, _, _ => none

/-- Normalize one raw row (source lines 90-104): codes and names are
stripped (names additionally tag-stripped), volume and price cells are
parsed.  A cell missing from a ragged row is treated as unparseable. -/
def toNRow (ix : ColIdx) (row : List String) : NRow :=
  { code := pyStrip (row.getD ix.codeIdx (""))
    name := pyStrip (stripTags (row.getD ix.nameIdx ("")))
    vol := to_num (row.getD ix.volIdx (""))
    close := to_price (row.getD ix.closeIdx ("")) }

/-- The post-exclusion rows: normalized rows whose names survive the
denylist, in original table order; empty if columns are unresolved. -/
def postExclusion (t : RawTable) : List NRow :=
  match resolveCols (t.fields.map pyStrip) with
  | none => []
  | some ix => (t.rows.map (toNRow ix)).filter keepRow

/-! ### Ranking order

`sort_values("成交股數", ascending=False)` sorts by volume descending
with NaN placed last.  The call uses the default `kind='quicksort'`
(numpy introsort), which is documented as not stable: the source
determines the descending key order but leaves the relative order of
tied volumes to the library implementation.  The embedding therefore
keeps the realized ordering abstract: `extract_top300_with` below takes
the sort realization as a parameter, and the concrete `extract_top300`
instantiates it with one admissible realization (insertion sort over
the position-refined preorder `rowLe`), used only for concrete
evaluation.  No theorem below depends on the order of tied volumes. -/

/-- Sort band of a volume: infinities first and last, NaN after all
numbers, as pandas descending sort with `na_position` last orders them. -/
def volRank : PyFloat → Nat
  | .pinf => 0
  | .finite _ => 1
  | .ninf => 2
  | .nan => 3

/-- Numeric sort key within the finite band: the negated value, so that
ascending key order is descending value order. -/
def volKeyQ : PyFloat → Q
  | .finite q => q.neg
  | _ => 0

/-- One total preorder refining the sort key with the original
position; insertion sort over it is one admissible realization of the
(tie-order-unspecified) library sort. -/
def rowLe (x y : Nat × NRow) : Prop :=
  volRank x.2.vol < volRank y.2.vol ∨
    (volRank x.2.vol = volRank y.2.vol ∧
      (Q.lt (volKeyQ x.2.vol) (volKeyQ y.2.vol) ∨
        (Q.qeq (volKeyQ x.2.vol) (volKeyQ y.2.vol) ∧ x.1 ≤ y.1)))

instance : DecidableRel rowLe := fun x y => by unfold rowLe; infer_instance

/-- Descending-by-volume, NaN last: `a` may precede `b`.  This is the
key order of the sort — what every realization must respect; for finite
values it is value order reversed (`volDescLe_finite` below). -/
def volDescLe (a b : PyFloat) : Prop :=
  volRank a < volRank b ∨ (volRank a = volRank b ∧ Q.le (volKeyQ a) (volKeyQ b))

/-- Derive one output Instrument from a ranked row (the lots column is
added after truncation: `(成交股數 / 1000.0).round(3)`, source line 110). -/
def mkInstrument (p : Nat × NRow) : Instrument :=
  { code := p.2.code
    name := p.2.name
    volume_shares := p.2.vol
    close_price := p.2.close
    volume_lots := PyFloat.round3 (PyFloat.div p.2.vol (.finite ⟨1000, 0⟩)) }

/-- Result of `extract_top300`: either the emitted universe or the
returned failure message of the missing-columns branch. -/
inductive ExtractResult where
  | uni (u : List Instrument)
  | failMsg (s : String)
deriving DecidableEq

instance {ε α : Type} [DecidableEq ε] [DecidableEq α] : DecidableEq (Except ε α) :=
  fun a b =>
    match a, b with
    | .error e, .error f =>
      if h : e = f then isTrue (by rw [h]) else isFalse (fun hc => h (Except.error.inj hc))
    | .ok x, .ok y =>
      if h : x = y then isTrue (by rw [h]) else isFalse (fun hc => h (Except.ok.inj hc))
    | .error _, .ok _ => isFalse (fun hc => Except.noConfusion hc)
    | .ok _, .error _ => isFalse (fun hc => Except.noConfusion hc)

/-- `extract_top300(df_raw)` (source lines 76-112), parameterized by
the realized ordering of the `sort_values` call: `sortFn` receives the
post-exclusion rows paired with their original positions and returns
them in the order the library sort realized (the source pins down only
the descending key order, not the order of ties — see the section
comment above).  The snapshot CSV write is modelled by `writeFails`:
the `to_csv` call on line 111 is not inside any `try`, so a failing
write raises out of the function (`Except.error ()`).  On success the
emitted universe is the first 300 of the sorted rows with the derived
lots column. -/
def extract_top300_with (sortFn : List (Nat × NRow) → List (Nat × NRow))
    (t : RawTable) (writeFails : Bool) : Except Unit ExtractResult :=
  match resolveCols (t.fields.map pyStrip) with
  | none => .ok (.failMsg ("Missing columns"))
  | some ix =>
    let kept := (t.rows.map (toNRow ix)).filter keepRow
    let ranked := (sortFn kept.enum).take 300
    if writeFails then .error () else .ok (.uni (ranked.map mkInstrument))

/-- `extract_top300` with one admissible sort realization (insertion
sort over `rowLe`), used for concrete evaluation; no theorem below
relies on the tie order this instantiation happens to produce. -/
def extract_top300 (t : RawTable) (writeFails : Bool) :
    Except Unit ExtractResult :=
  extract_top300_with (List.insertionSort rowLe) t writeFails

/-! ### Strength Evaluator data model -/

/-- One daily bar; the evaluator consumes only close and volume. -/
structure Bar where
  close : PyFloat
  volume : PyFloat
deriving DecidableEq

/-- The fetched history for one symbol: whether the frame has the Close
and Volume columns, and the bars in date-ascending order.  A `None`
download is folded into the empty-frame case (both yield `no-data`). -/
structure RawHistory where
  hasClose : Bool
  hasVolume : Bool
  bars : List Bar
deriving DecidableEq

/-- The per-condition breakdown returned as the reason record
(source lines 149-156). -/
structure CondRecord where
  cond_vols_up : Bool
  cond_yesterday_vs_ma5 : Bool
  cond_close_above_ma5 : Bool
  cond_close_new10 : Bool
  cond_pct : Bool
  pct : PyFloat
deriving DecidableEq

/-- The reason part of a verdict: a diagnostic tag for the short-circuit
branches, or the full condition record. -/
inductive Reason where
  | noData
  | noVolume
  | shortHistory
  | conds (r : CondRecord)
deriving DecidableEq

/-- The verdict for one instrument. -/
structure Verdict where
  passed : Bool
  reason : Reason
deriving DecidableEq

/-- `data.dropna(subset=["Close"])`: keep bars whose close is not NaN. -/
def validBars (bars : List Bar) : List Bar :=
  bars.filter (fun b => !b.close.isNaN)

/-- `series.rolling(w).mean()`: position `i` carries the mean of the
window of `w` values ending at `i`, NaN while the window is not full
(default `min_periods`). -/
def rollingMean (w : Nat) (xs : List PyFloat) : List PyFloat :=
  (List.range xs.length).map (fun i =>
    if i + 1 < w then .nan
    else PyFloat.div (PyFloat.psum ((xs.drop (i + 1 - w)).take w))
      (.finite ⟨(w : Int), 0⟩))

def closesOf (d : List Bar) : List PyFloat := d.map Bar.close

def volsOf (d : List Bar) : List PyFloat := d.map Bar.volume

/-- `data["Close"].iloc[-1]`. -/
def closeToday (d : List Bar) : PyFloat := (closesOf d).getD (d.length - 1) .nan

/-- `data["Close"].iloc[-2]`. -/
def prevClose (d : List Bar) : PyFloat := (closesOf d).getD (d.length - 2) .nan

/-- Condition 1 (source lines 134-135): the last three volumes are
strictly increasing; requires exactly three values in the tail. -/
def cond_vols_up (d : List Bar) : Bool :=
  match (volsOf d).drop (d.length - 3) with
  | [a, b, c] => PyFloat.ltB a b && PyFloat.ltB b c
  | _ => false

/-- Condition 2 (source lines 136-138): the second-to-last volume
exceeds twice the 5-bar volume moving average at that same bar; false
when that average is NaN. -/
def cond_yesterday_vs_ma5 (d : List Bar) : Bool :=
  let m := (rollingMean 5 (volsOf d)).getD (d.length - 2) .nan
  !m.isNaN && PyFloat.ltB (m.mul (.finite ⟨2, 0⟩)) ((volsOf d).getD (d.length - 2) .nan)

/-- Condition 3 (source lines 139-141): the last close exceeds the 5-bar
close moving average at the last bar; false when that average is NaN. -/
def cond_close_above_ma5 (d : List Bar) : Bool :=
  let m := (rollingMean 5 (closesOf d)).getD (d.length - 1) .nan
  !m.isNaN && PyFloat.ltB m (closeToday d)

/-- `data["Close"].tail(10).max()` (source line 142). -/
def tenHigh (d : List Bar) : PyFloat :=
  PyFloat.pmax ((closesOf d).drop (d.length - 10))

/-- Condition 4 (source lines 142-143): at or above the 10-bar high, or
at least 95 percent of it. -/
def cond_close_new10 (d : List Bar) : Bool :=
  PyFloat.leB (tenHigh d) (closeToday d) ||
    PyFloat.leB ((tenHigh d).mul (.finite ⟨19, 19⟩)) (closeToday d)

/-- Day-over-day percent change (source lines 144-145). -/
def pctChange (d : List Bar) : PyFloat :=
  (((closeToday d).sub (prevClose d)).div (prevClose d)).mul (.finite ⟨100, 0⟩)

/-- Condition 5 (source line 146): percent change above 3.0. -/
def cond_pct (d : List Bar) : Bool :=
  PyFloat.ltB (.finite ⟨3, 0⟩) (pctChange d)

/-- The reason record built on the full-evaluation path. -/
def mkRecord (d : List Bar) : CondRecord :=
  { cond_vols_up := cond_vols_up d
    cond_yesterday_vs_ma5 := cond_yesterday_vs_ma5 d
    cond_close_above_ma5 := cond_close_above_ma5 d
    cond_close_new10 := cond_close_new10 d
    cond_pct := cond_pct d
    pct := PyFloat.round2 (pctChange d) }

/-- `is_strong_stock` (source lines 114-159), for a fetched history:
empty frame or missing Close column gives `no-data`; missing Volume
gives `no-volume`; fewer than ten valid bars after dropping NaN closes
gives `short-history`; otherwise the verdict is the conjunction of the
five conditions, with the per-condition record as reason. -/
def is_strong_stock (h : RawHistory) : Verdict :=
  if h.bars.isEmpty || !h.hasClose then ⟨false, .noData⟩
  else if !h.hasVolume then ⟨false, .noVolume⟩
  else if (validBars h.bars).length < 10 then ⟨false, .shortHistory⟩
  else
    let d := validBars h.bars
    let r := mkRecord d
    ⟨r.cond_vols_up && r.cond_yesterday_vs_ma5 && r.cond_close_above_ma5 &&
      r.cond_close_new10 && r.cond_pct, .conds r⟩

/-! ### Envelope search (`fetch_twse_table`)

The network fetch is external; the model takes the decoded JSON payload
(`r.json()`).  The source tries the top level for a `data`/`fields`
pair, then every value of the mapping, and otherwise returns a failure
message.  When the payload is not a mapping, `js.items()` raises an
uncaught `AttributeError`, modelled as `Except.error ()`. -/

inductive Json where
  | null
  | bool (b : Bool)
  | num (q : Q)
  | str (s : String)
  | arr (xs : List Json)
  | obj (kvs : List (String × Json))

/-- First-occurrence key lookup in a mapping. -/
def jlookup : List (String × Json) → String → Option Json
  | [], _ => none
  | (k, v) :: kvs, key => if k = key then some v else jlookup kvs key

def asStr : Json → Option String
  | .str s => some s
  | _ => none

/-- One table row: an array of cell strings of the declared width
(`pd.DataFrame` raises on a width mismatch; cells are modelled as the
strings the provider delivers). -/
def asRow (n : Nat) : Json → Option (List String)
  | .arr cells => if cells.length = n then cells.mapM asStr else none
  | _ => none

/-- `pd.DataFrame(data, columns=fields)`: `none` models the exception
swallowed by the `except: pass` of the source. -/
def mkDataFrame (d f : Json) : Option RawTable :=
  match f with
  | .arr fs =>
    match fs.mapM asStr with
    | some fields =>
      match d with
      | .arr rs =>
        match rs.mapM (asRow fields.length) with
        | some rows => some ⟨fields, rows⟩
        | none => none
      | _ => none
    | none => none
  | _ => none

/-- Try one candidate mapping: it must be a dict with both keys, and the
DataFrame construction must succeed (source lines 60-65 and 67-73 use
the same shape test). -/
def producesTable (v : Json) : Option RawTable :=
  match v with
  | .obj kvs =>
    match jlookup kvs ("data"), jlookup kvs ("fields") with
    | some d, some f => mkDataFrame d f
    | _, _ => none
  | _ => none

/-- Whether a `data`/`fields` pair exists at the top level or nested one
level inside the mapping. -/
def hasCandidatePair (js : Json) : Bool :=
  match js with
  | .obj kvs =>
    ((jlookup kvs ("data")).isSome && (jlookup kvs ("fields")).isSome) ||
      kvs.any (fun p =>
        match p.2 with
        | .obj kvs2 => (jlookup kvs2 ("data")).isSome && (jlookup kvs2 ("fields")).isSome
        | _ => false)
  | _ => false

/-- Outcome of the parse phase of `fetch_twse_table`: a table, or the
returned `(None, message)` failure. -/
inductive FetchResult where
  | table (t : RawTable)
  | failMsg (s : String)
deriving DecidableEq

def schemaMsg : String := "No suitable table structure found in TWSE JSON."

/-- The envelope-search phase of `fetch_twse_table` (source lines
58-74), on the decoded payload.  `Except.error ()` models the uncaught
`AttributeError` of `js.items()` on a non-mapping payload. -/
def fetch_twse_table (js : Json) : Except Unit FetchResult :=
  match js with
  | .obj kvs =>
    match producesTable js with
    | some t => .ok (.table t)
    | none =>
      match kvs.findSome? (fun p => producesTable p.2) with
      | some t => .ok (.table t)
      | none => .ok (.failMsg schemaMsg)
  | _ => .error ()

/-! ### Concrete sample data (used by witness theorems) -/

/-- Shorthand: an integer-valued float. -/
def fInt (n : Int) : PyFloat := .finite ⟨n, 0⟩

/-- A ten-bar history on which all five conditions hold: closes
`1,...,1,2`, volumes `1,...,1,3,4`. -/
def Wbars : List Bar :=
  [⟨fInt 1, fInt 1⟩, ⟨fInt 1, fInt 1⟩, ⟨fInt 1, fInt 1⟩, ⟨fInt 1, fInt 1⟩,
   ⟨fInt 1, fInt 1⟩, ⟨fInt 1, fInt 1⟩, ⟨fInt 1, fInt 1⟩, ⟨fInt 1, fInt 1⟩,
   ⟨fInt 1, fInt 3⟩, ⟨fInt 2, fInt 4⟩]

/-- The sample history with both columns present. -/
def Wh : RawHistory := ⟨true, true, Wbars⟩

/-- The condition record produced on `Wh`. -/
def Wrec : CondRecord := ⟨true, true, true, true, true, .finite ⟨10000, 99⟩⟩

/-- A one-bar history (short). -/
def shortH : RawHistory := ⟨true, true, [⟨fInt 1, fInt 1⟩]⟩

/-- A small raw table: two common-equity rows and one excluded row. -/
def Wt : RawTable :=
  ⟨["證券代號", "證券名稱", "成交股數", "收盤價"],
   [["1101", "台泥", "2,000", "30.5"],
    ["2330", "台積電", "3000", "500"],
    ["0050", "元大台灣50", "99999", "100"]]⟩

/-- The universe emitted for `Wt`. -/
def WU : List Instrument :=
  [⟨"2330", "台積電", .finite ⟨3000, 0⟩, .finite ⟨500, 0⟩, .finite ⟨3000, 999⟩⟩,
   ⟨"1101", "台泥", .finite ⟨2000, 0⟩, .finite ⟨305, 9⟩, .finite ⟨2000, 999⟩⟩]

/-- A raw table whose single volume cell is a negative numeral. -/
def Tneg : RawTable :=
  ⟨["證券代號", "證券名稱", "成交股數", "收盤價"],
   [["9999", "測試", "-5", "10"]]⟩

/-- The instrument emitted for `Tneg` (negative share volume). -/
def TnegInst : Instrument :=
  ⟨"9999", "測試", .finite ⟨-5, 0⟩, .finite ⟨10, 0⟩, .finite ⟨-5, 999⟩⟩

/-! ## Proofs -/

/-! ### Value semantics of `Q` -/

namespace Q
theorem den_pos (q : Q) : (0 : ℤ) < q.den := by
  unfold den; omega

theorem den_val_pos (q : Q) : (0 : ℚ) < (q.den : ℚ) := by
  exact_mod_cast den_pos q

theorem den_val_ne (q : Q) : ((q.den : ℚ)) ≠ 0 := ne_of_gt (den_val_pos q)

theorem le_iff_val {a b : Q} : le a b ↔ val a ≤ val b := by
  unfold le val
  rw [div_le_div_iff₀ (den_val_pos a) (den_val_pos b)]
  constructor
  · intro h; exact_mod_cast h
  · intro h; exact_mod_cast h

theorem lt_iff_val {a b : Q} : lt a b ↔ val a < val b := by
  unfold lt val
  rw [div_lt_div_iff₀ (den_val_pos a) (den_val_pos b)]
  constructor
  · intro h; exact_mod_cast h
  · intro h; exact_mod_cast h

theorem qeq_iff_val {a b : Q} : qeq a b ↔ val a = val b := by
  unfold qeq val
  rw [div_eq_div_iff (den_val_ne a) (den_val_ne b)]
  constructor
  · intro h; exact_mod_cast h
  · intro h; exact_mod_cast h

theorem val_mk (n : Int) (d : Nat) : val ⟨n, d⟩ = (n : ℚ) / ((d : ℚ) + 1) := by
  unfold val den
  push_cast
  ring_nf

theorem denN_ne_zero (q : Q) : q.denN ≠ 0 := Nat.succ_ne_zero _

theorem denN_cast_q (a b : Q) : ((a.denN * b.denN - 1 : Nat) : ℚ) + 1
    = (a.denN : ℚ) * (b.denN : ℚ) := by
  have h : 1 ≤ a.denN * b.denN :=
    Nat.one_le_iff_ne_zero.2 (Nat.mul_ne_zero (denN_ne_zero a) (denN_ne_zero b))
  rw [Nat.cast_sub h]
  push_cast
  ring

theorem den_cast_q (a : Q) : ((a.den : Int) : ℚ) = (a.denN : ℚ) := by
  unfold den denN
  push_cast
  ring

theorem denN_q_pos (a : Q) : (0 : ℚ) < (a.denN : ℚ) := by
  have := a.den_val_pos
  rw [den_cast_q] at this
  exact this

theorem val_eq_num_denN (a : Q) : val a = (a.num : ℚ) / (a.denN : ℚ) := by
  unfold val
  rw [den_cast_q]

theorem val_add (a b : Q) : val (add a b) = val a + val b := by
  unfold add
  rw [val_mk, val_eq_num_denN, val_eq_num_denN, denN_cast_q]
  have ha := denN_q_pos a
  have hb := denN_q_pos b
  push_cast
  rw [den_cast_q a, den_cast_q b]
  field_simp

theorem val_neg (a : Q) : val (neg a) = -val a := by
  unfold val neg den
  push_cast
  ring

theorem val_sub (a b : Q) : val (sub a b) = val a - val b := by
  unfold sub
  rw [val_add, val_neg]
  ring

theorem val_mul (a b : Q) : val (mul a b) = val a * val b := by
  unfold mul
  rw [val_mk, val_eq_num_denN, val_eq_num_denN, denN_cast_q]
  have ha := denN_q_pos a
  have hb := denN_q_pos b
  push_cast
  field_simp

theorem val_ofInt (n : Int) : val (ofInt n) = (n : ℚ) := by
  unfold ofInt
  rw [val_mk]
  norm_num

theorem val_inv (a : Q) (h : a.num ≠ 0) : val (inv a) = (val a)⁻¹ := by
  have hvne : ((a.num : ℚ)) ≠ 0 := by exact_mod_cast h
  unfold inv
  rcases lt_trichotomy a.num 0 with hn | hn | hn
  · have h1 : ¬ (0 < a.num) := by omega
    rw [if_neg h1, if_pos hn, val_mk, val_eq_num_denN]
    have hden : ((((-a.num).toNat - 1 : Nat)) : ℚ) + 1 = -(a.num : ℚ) := by
      have hz : ((((-a.num).toNat - 1 : Nat)) : ℤ) + 1 = -a.num := by omega
      exact_mod_cast hz
    rw [hden]
    push_cast
    rw [den_cast_q a]
    have hdq := denN_q_pos a
    field_simp
  · exact absurd hn h
  · rw [if_pos hn, val_mk, val_eq_num_denN]
    have hden : (((a.num.toNat - 1 : Nat)) : ℚ) + 1 = (a.num : ℚ) := by
      have hz : (((a.num.toNat - 1 : Nat)) : ℤ) + 1 = a.num := by omega
      exact_mod_cast hz
    rw [hden]
    rw [den_cast_q a]
    have hdq := denN_q_pos a
    field_simp

theorem val_div (a b : Q) (h : b.num ≠ 0) : val (div a b) = val a / val b := by
  unfold div
  rw [val_mul, val_inv b h, div_eq_mul_inv]

theorem num_eq_zero_iff_val {a : Q} : a.num = 0 ↔ val a = 0 := by
  unfold val
  rw [div_eq_zero_iff]
  constructor
  · intro h; left; exact_mod_cast h
  · rintro (h | h)
    · exact_mod_cast h
    · exact absurd h (den_val_ne a)
end Q

/-! ### The ranking order is a total preorder -/

instance : IsTotal (Nat × NRow) rowLe := by
  constructor
  intro x y
  unfold rowLe
  rcases Nat.lt_trichotomy (volRank x.2.vol) (volRank y.2.vol) with h | h | h
  · exact Or.inl (Or.inl h)
  · rcases lt_trichotomy (Q.val (volKeyQ x.2.vol)) (Q.val (volKeyQ y.2.vol)) with hq | hq | hq
    · exact Or.inl (Or.inr ⟨h, Or.inl (Q.lt_iff_val.2 hq)⟩)
    · rcases Nat.le_total x.1 y.1 with hi | hi
      · exact Or.inl (Or.inr ⟨h, Or.inr ⟨Q.qeq_iff_val.2 hq, hi⟩⟩)
      · exact Or.inr (Or.inr ⟨h.symm, Or.inr ⟨Q.qeq_iff_val.2 hq.symm, hi⟩⟩)
    · exact Or.inr (Or.inr ⟨h.symm, Or.inl (Q.lt_iff_val.2 hq)⟩)
  · exact Or.inr (Or.inl h)

instance : IsTrans (Nat × NRow) rowLe := by
  constructor
  intro x y z hxy hyz
  unfold rowLe at hxy hyz ⊢
  rcases hxy with h1 | ⟨h1, h1q⟩
  · rcases hyz with h2 | ⟨h2, _⟩
    · exact Or.inl (h1.trans h2)
    · exact Or.inl (h2 ▸ h1)
  · rcases hyz with h2 | ⟨h2, h2q⟩
    · exact Or.inl (h1 ▸ h2)
    · refine Or.inr ⟨h1.trans h2, ?_⟩
      rcases h1q with hq1 | ⟨hq1, hi1⟩
      · rcases h2q with hq2 | ⟨hq2, _⟩
        · exact Or.inl (Q.lt_iff_val.2 ((Q.lt_iff_val.1 hq1).trans (Q.lt_iff_val.1 hq2)))
        · exact Or.inl (Q.lt_iff_val.2 (lt_of_lt_of_eq (Q.lt_iff_val.1 hq1) (Q.qeq_iff_val.1 hq2)))
      · rcases h2q with hq2 | ⟨hq2, hi2⟩
        · exact Or.inl (Q.lt_iff_val.2 (lt_of_eq_of_lt (Q.qeq_iff_val.1 hq1) (Q.lt_iff_val.1 hq2)))
        · exact Or.inr ⟨Q.qeq_iff_val.2 ((Q.qeq_iff_val.1 hq1).trans (Q.qeq_iff_val.1 hq2)), hi1.trans hi2⟩

/-! ### Evaluator-path lemmas -/

theorem validBars_isEmpty_false {bs : List Bar} (hn : 1 ≤ (validBars bs).length) :
    bs.isEmpty = false := by
  cases bs with
  | nil => simp [validBars] at hn
  | cons b t => rfl

/-- On a sufficient history the evaluator reaches the full-evaluation
branch: the verdict is the conjunction of the five conditions with the
condition record as the reason. -/
theorem is_strong_eval (h : RawHistory) (hc : h.hasClose = true)
    (hv : h.hasVolume = true) (hn : 10 ≤ (validBars h.bars).length) :
    is_strong_stock h =
      ⟨cond_vols_up (validBars h.bars) && cond_yesterday_vs_ma5 (validBars h.bars) &&
        cond_close_above_ma5 (validBars h.bars) && cond_close_new10 (validBars h.bars) &&
        cond_pct (validBars h.bars), .conds (mkRecord (validBars h.bars))⟩ := by
  have hne : h.bars.isEmpty = false := validBars_isEmpty_false (by omega)
  simp [is_strong_stock, hne, hc, hv, Nat.not_lt.2 hn, mkRecord]

/-- C1: on a sufficient history (Close and Volume present, at least ten
valid bars) the passed flag is true iff all five conditions hold, and
any single false condition forces a failing verdict. -/
theorem strong_passed_iff_all_conditions (h : RawHistory) (hc : h.hasClose = true)
    (hv : h.hasVolume = true) (hn : 10 ≤ (validBars h.bars).length) :
    ((is_strong_stock h).passed = true ↔
      (cond_vols_up (validBars h.bars) = true ∧
       cond_yesterday_vs_ma5 (validBars h.bars) = true ∧
       cond_close_above_ma5 (validBars h.bars) = true ∧
       cond_close_new10 (validBars h.bars) = true ∧
       cond_pct (validBars h.bars) = true)) ∧
    ((cond_vols_up (validBars h.bars) = false ∨
      cond_yesterday_vs_ma5 (validBars h.bars) = false ∨
      cond_close_above_ma5 (validBars h.bars) = false ∨
      cond_close_new10 (validBars h.bars) = false ∨
      cond_pct (validBars h.bars) = false) →
      (is_strong_stock h).passed = false) := by
  rw [is_strong_eval h hc hv hn]
  constructor
  · simp [Bool.and_eq_true, and_assoc]
  · intro hd
    simp only [Bool.and_eq_false_iff]
    rcases hd with h1 | h1 | h1 | h1 | h1 <;> simp [h1]

/-- C1 witness: the sample ten-bar history satisfies the hypotheses and
all five conditions. -/
theorem strong_passed_iff_all_conditions_witness :
    Wh.hasClose = true ∧ Wh.hasVolume = true ∧ 10 ≤ (validBars Wh.bars).length ∧
    ((is_strong_stock Wh).passed = true ↔
      (cond_vols_up (validBars Wh.bars) = true ∧
       cond_yesterday_vs_ma5 (validBars Wh.bars) = true ∧
       cond_close_above_ma5 (validBars Wh.bars) = true ∧
       cond_close_new10 (validBars Wh.bars) = true ∧
       cond_pct (validBars Wh.bars) = true)) :=
  ⟨rfl, rfl, by decide,
    (strong_passed_iff_all_conditions Wh rfl rfl (by decide)).1⟩

/-- C4 counterexample: a fetched frame that is empty but has both
columns has fewer than ten valid bars, yet the verdict reason is
`no-data`, not `short-history`. -/
theorem short_history_cex :
    (validBars (RawHistory.mk true true []).bars).length < 10 ∧
    is_strong_stock ⟨true, true, []⟩ = ⟨false, Reason.noData⟩ ∧
    (is_strong_stock ⟨true, true, []⟩).reason ≠ Reason.shortHistory := by
  refine ⟨by decide, by decide, by decide⟩

/-- C4 amended: on a nonempty history with both columns and fewer than
ten valid bars, the verdict is exactly `passed = false` with reason
`short-history`. -/
theorem short_history_amended (h : RawHistory) (hne : h.bars ≠ [])
    (hc : h.hasClose = true) (hv : h.hasVolume = true)
    (hlt : (validBars h.bars).length < 10) :
    is_strong_stock h = ⟨false, .shortHistory⟩ := by
  have hne2 : h.bars.isEmpty = false := by
    cases hb : h.bars with
    | nil => exact absurd hb hne
    | cons b t => rfl
  simp [is_strong_stock, hne2, hc, hv, hlt]

/-- C4 witness: the one-bar history yields the short-history verdict. -/
theorem short_history_amended_witness :
    shortH.bars ≠ [] ∧ (validBars shortH.bars).length < 10 ∧
    is_strong_stock shortH = ⟨false, .shortHistory⟩ :=
  ⟨by decide, by decide, short_history_amended shortH (by decide) rfl rfl (by decide)⟩

/-- Reading a full-window entry of a rolling mean. -/
theorem rollingMean_getD (w : Nat) (xs : List PyFloat) (i : Nat)
    (hi : i < xs.length) (hw : w ≤ i + 1) :
    (rollingMean w xs).getD i .nan =
      PyFloat.div (PyFloat.psum ((xs.drop (i + 1 - w)).take w))
        (.finite ⟨(w : Int), 0⟩) := by
  unfold rollingMean
  rw [List.getD_eq_getElem?_getD, List.getElem?_map]
  simp [List.getElem?_range, hi, Nat.not_lt.2 hw]

/-- On a sufficient history the reason record is the condition record of
the valid bars. -/
theorem reason_record_eq (h : RawHistory) (hc : h.hasClose = true)
    (hv : h.hasVolume = true) (hn : 10 ≤ (validBars h.bars).length)
    (r : CondRecord) (hr : (is_strong_stock h).reason = .conds r) :
    r = mkRecord (validBars h.bars) := by
  rw [is_strong_eval h hc hv hn] at hr
  exact (Reason.conds.inj hr).symm

/-- C5: on a sufficient history, the reported `cond_yesterday_vs_ma5`
flag is true exactly when the second-to-last volume strictly exceeds
twice the mean of the five volumes ending at that same bar (positions
`n-6` through `n-2`), and is false whenever that mean is NaN. -/
theorem yesterday_vs_ma5_window_spec (h : RawHistory) (hc : h.hasClose = true)
    (hv : h.hasVolume = true) (hn : 10 ≤ (validBars h.bars).length)
    (r : CondRecord) (hr : (is_strong_stock h).reason = .conds r) :
    r.cond_yesterday_vs_ma5 = true ↔
      (PyFloat.isNaN (PyFloat.div
          (PyFloat.psum (((volsOf (validBars h.bars)).drop
            ((validBars h.bars).length - 6)).take 5)) (.finite ⟨5, 0⟩)) = false ∧
       PyFloat.ltB
         ((PyFloat.div (PyFloat.psum (((volsOf (validBars h.bars)).drop
             ((validBars h.bars).length - 6)).take 5))
           (.finite ⟨5, 0⟩)).mul (.finite ⟨2, 0⟩))
         ((volsOf (validBars h.bars)).getD ((validBars h.bars).length - 2) .nan)
         = true) := by
  rw [reason_record_eq h hc hv hn r hr]
  show cond_yesterday_vs_ma5 (validBars h.bars) = true ↔ _
  unfold cond_yesterday_vs_ma5
  have hlen : (volsOf (validBars h.bars)).length = (validBars h.bars).length := by
    unfold volsOf; exact List.length_map _ _
  have hi : (validBars h.bars).length - 2 < (volsOf (validBars h.bars)).length := by
    rw [hlen]; omega
  have hw : 5 ≤ (validBars h.bars).length - 2 + 1 := by omega
  rw [rollingMean_getD 5 (volsOf (validBars h.bars)) ((validBars h.bars).length - 2) hi hw]
  have harith : (validBars h.bars).length - 2 + 1 - 5 = (validBars h.bars).length - 6 := by
    omega
  rw [harith]
  simp [Bool.and_eq_true, Bool.not_eq_true']

/-- C5 witness: on the sample history the flag and the window formula
agree (and the record is the one produced). -/
theorem yesterday_vs_ma5_window_spec_witness :
    (is_strong_stock Wh).reason = Reason.conds Wrec ∧
    (Wrec.cond_yesterday_vs_ma5 = true ↔
      (PyFloat.isNaN (PyFloat.div
          (PyFloat.psum (((volsOf (validBars Wh.bars)).drop
            ((validBars Wh.bars).length - 6)).take 5)) (.finite ⟨5, 0⟩)) = false ∧
       PyFloat.ltB
         ((PyFloat.div (PyFloat.psum (((volsOf (validBars Wh.bars)).drop
             ((validBars Wh.bars).length - 6)).take 5))
           (.finite ⟨5, 0⟩)).mul (.finite ⟨2, 0⟩))
         ((volsOf (validBars Wh.bars)).getD ((validBars Wh.bars).length - 2) .nan)
         = true)) :=
  ⟨by decide, yesterday_vs_ma5_window_spec Wh rfl rfl (by decide) Wrec (by decide)⟩

/-- A positive ten-bar high absorbs the tolerance band: at or above the
high implies at or above 95 percent of it. -/
theorem leB_mul_c95 (th c : PyFloat) (hpos : PyFloat.ltB (.finite 0) th = true)
    (hle : PyFloat.leB th c = true) :
    PyFloat.leB (th.mul (.finite ⟨19, 19⟩)) c = true := by
  cases th with
  | finite q =>
    cases c with
    | finite qc =>
      simp only [PyFloat.ltB, decide_eq_true_eq] at hpos
      simp only [PyFloat.leB, PyFloat.mul, decide_eq_true_eq] at hle ⊢
      rw [Q.le_iff_val] at hle ⊢
      rw [Q.lt_iff_val] at hpos
      rw [Q.val_mul]
      have h95 : Q.val ⟨19, 19⟩ = 19 / 20 := by rw [Q.val_mk]; norm_num
      have h0 : Q.val (0 : Q) = 0 := by
        rw [show (0 : Q) = ⟨0, 0⟩ from rfl, Q.val_mk]; norm_num
      rw [h95]
      rw [h0] at hpos
      nlinarith [hpos, hle]
    | pinf => rfl
    | ninf => simp [PyFloat.leB] at hle
    | nan => simp [PyFloat.leB] at hle
  | pinf =>
    have hm : PyFloat.mul .pinf (.finite ⟨19, 19⟩) = .pinf := by decide
    rw [hm]; exact hle
  | ninf => simp [PyFloat.ltB] at hpos
  | nan => simp [PyFloat.ltB] at hpos

/-- C10: on a sufficient history with a positive ten-bar high, the
reported `cond_close_new10` flag is equivalent to the single inequality
`close ≥ 0.95 * tenHigh`, and the exact-high disjunct never holds
without the tolerance disjunct. -/
theorem close_new10_tolerance_iff (h : RawHistory) (hc : h.hasClose = true)
    (hv : h.hasVolume = true) (hn : 10 ≤ (validBars h.bars).length)
    (r : CondRecord) (hr : (is_strong_stock h).reason = .conds r)
    (hpos : PyFloat.ltB (.finite 0) (tenHigh (validBars h.bars)) = true) :
    (r.cond_close_new10 = true ↔
      PyFloat.leB ((tenHigh (validBars h.bars)).mul (.finite ⟨19, 19⟩))
        (closeToday (validBars h.bars)) = true) ∧
    (PyFloat.leB (tenHigh (validBars h.bars)) (closeToday (validBars h.bars)) = true →
      PyFloat.leB ((tenHigh (validBars h.bars)).mul (.finite ⟨19, 19⟩))
        (closeToday (validBars h.bars)) = true) := by
  have habs : PyFloat.leB (tenHigh (validBars h.bars)) (closeToday (validBars h.bars)) = true →
      PyFloat.leB ((tenHigh (validBars h.bars)).mul (.finite ⟨19, 19⟩))
        (closeToday (validBars h.bars)) = true :=
    fun hle => leB_mul_c95 _ _ hpos hle
  refine ⟨?_, habs⟩
  rw [reason_record_eq h hc hv hn r hr]
  show cond_close_new10 (validBars h.bars) = true ↔ _
  unfold cond_close_new10
  constructor
  · intro hor
    rcases Bool.or_eq_true_iff.1 hor with h1 | h1
    · exact habs h1
    · exact h1
  · intro h2
    exact Bool.or_eq_true_iff.2 (Or.inr h2)

/-- C10 witness: on the sample history the high is positive and the
equivalence is realized. -/
theorem close_new10_tolerance_iff_witness :
    PyFloat.ltB (.finite 0) (tenHigh (validBars Wh.bars)) = true ∧
    (is_strong_stock Wh).reason = Reason.conds Wrec ∧
    (Wrec.cond_close_new10 = true ↔
      PyFloat.leB ((tenHigh (validBars Wh.bars)).mul (.finite ⟨19, 19⟩))
        (closeToday (validBars Wh.bars)) = true) :=
  ⟨by decide, by decide,
    (close_new10_tolerance_iff Wh rfl rfl (by decide) Wrec (by decide) (by decide)).1⟩

/-! ### Cell parsing claims -/

/-- C3 counterexample: the no-trade placeholder `--` is normalized to
`0` before parsing, so the close price becomes `0.0`, not NaN. -/
theorem to_price_placeholder_cex :
    to_price ("--") = PyFloat.finite 0 ∧
    PyFloat.isNaN (to_price ("--")) = false ∧
    to_price ("--") ≠ PyFloat.nan := by
  refine ⟨by decide, by decide, by decide⟩

/-- C3 amended: a closing-price cell whose normalized form fails the
float grammar yields NaN (never zero), and parsing is total; the `--`
placeholder, however, is replaced by `0` and parses to `0.0`. -/
theorem to_price_unparseable_amended :
    (∀ s : String, pyFloat? (normalizeCell s) = none →
      to_price s = PyFloat.nan ∧ to_price s ≠ PyFloat.finite 0) ∧
    to_price ("--") = PyFloat.finite 0 := by
  refine ⟨fun s hp => ?_, by decide⟩
  unfold to_price
  rw [hp]
  exact ⟨rfl, by decide⟩

/-- C3 witness: a concrete unparseable cell. -/
theorem to_price_unparseable_amended_witness :
    pyFloat? (normalizeCell ("abc")) = none ∧
    (to_price ("abc") = PyFloat.nan ∧ to_price ("abc") ≠ PyFloat.finite 0) :=
  ⟨by decide, to_price_unparseable_amended.1 ("abc") (by decide)⟩

/-- C7 counterexample: a raw volume cell holding a negative numeral
parses to a negative share volume which reaches the output universe, so
`volume_shares ≥ 0` fails. -/
theorem negative_volume_cex :
    extract_top300 Tneg false = .ok (.uni [TnegInst]) ∧
    PyFloat.leB (.finite 0) TnegInst.volume_shares = false := by
  refine ⟨by decide, by decide⟩

/-- C7 amended: volume parsing is total and every cell whose normalized
form fails the float grammar yields `0.0`; but a cell holding a
negative numeral yields a negative `volume_shares` (the builder does
not enforce non-negativity). -/
theorem to_num_total_default_amended :
    (∀ s : String, pyFloat? (normalizeCell s) = none →
      to_num s = PyFloat.finite 0) ∧
    to_num ("-5") = PyFloat.finite ⟨-5, 0⟩ := by
  refine ⟨fun s hp => ?_, by decide⟩
  unfold to_num
  rw [hp]
  rfl

/-- C7 witness: a concrete malformed volume cell defaults to zero. -/
theorem to_num_total_default_amended_witness :
    pyFloat? (normalizeCell ("xx")) = none ∧ to_num ("xx") = PyFloat.finite 0 :=
  ⟨by decide, to_num_total_default_amended.1 ("xx") (by decide)⟩

/-! ### Artifact-write failure claims -/

/-- C9 counterexample: the same table succeeds when the snapshot write
succeeds, and aborts with an uncaught exception when the write fails —
the `to_csv` call of the universe builder is not guarded by any `try`. -/
theorem universe_write_failure_cex :
    extract_top300 Wt false = .ok (.uni WU) ∧
    extract_top300 Wt true = .error () := by
  refine ⟨by decide, by decide⟩

/-- C9 amended: a failing artifact write during universe building always
propagates: with the write failing, `extract_top300` never returns a
universe (it either raises, or had already failed on columns). -/
theorem write_failure_propagates_amended (t : RawTable) :
    extract_top300 t true = .error () ∨
    ∃ s, extract_top300 t true = .ok (.failMsg s) := by
  unfold extract_top300 extract_top300_with
  cases resolveCols (t.fields.map pyStrip) with
  | none => exact Or.inr ⟨"Missing columns", rfl⟩
  | some ix => exact Or.inl rfl

/-! ### Envelope-search claims -/

/-- C6 counterexample: a payload that is not a mapping (here an empty
array) contains no candidate pair, and the search raises an uncaught
exception instead of returning the failure message. -/
theorem fetch_nonmapping_cex :
    hasCandidatePair (Json.arr []) = false ∧
    fetch_twse_table (Json.arr []) = .error () :=
  ⟨rfl, rfl⟩

/-- C6 amended: for mapping payloads the builder fails closed — no
candidate `data`/`fields` pair at either level yields the schema-not-
found message — and the first usable pair (top level first, then the
values in order) is selected; a payload that is not a mapping, however,
raises an uncaught exception. -/
theorem fetch_twse_table_envelope_amended (js : Json) :
    ((∀ kvs, js ≠ Json.obj kvs) → fetch_twse_table js = .error ()) ∧
    (∀ kvs, js = Json.obj kvs → hasCandidatePair js = false →
      fetch_twse_table js = .ok (.failMsg schemaMsg)) ∧
    (∀ t, producesTable js = some t → fetch_twse_table js = .ok (.table t)) ∧
    (∀ kvs l1 k v l2 t, js = Json.obj kvs → kvs = l1 ++ (k, v) :: l2 →
      producesTable js = none → (∀ p ∈ l1, producesTable p.2 = none) →
      producesTable v = some t → fetch_twse_table js = .ok (.table t)) := by
  refine ⟨?_, ?_, ?_, ?_⟩
  · intro hno
    cases js with
    | obj kvs => exact absurd rfl (hno kvs)
    | null => rfl
    | bool b => rfl
    | num q => rfl
    | str s => rfl
    | arr xs => rfl
  · intro kvs hjs hnp
    subst hjs
    unfold hasCandidatePair at hnp
    rw [Bool.or_eq_false_iff] at hnp
    rcases hnp with ⟨h1, h2⟩
    have htop : producesTable (Json.obj kvs) = none := by
      rw [Bool.and_eq_false_iff] at h1
      cases hd : jlookup kvs ("data") with
      | none => simp [producesTable, hd]
      | some d =>
        cases hf : jlookup kvs ("fields") with
        | none => simp [producesTable, hd, hf]
        | some f =>
          rcases h1 with h1 | h1
          · rw [hd] at h1; simp at h1
          · rw [hf] at h1; simp at h1
    have hnest : kvs.findSome? (fun p => producesTable p.2) = none := by
      rw [List.findSome?_eq_none_iff]
      intro p hp
      have h2p := List.any_eq_false.1 h2 p hp
      cases hv2 : p.2 with
      | obj kvs2 =>
        rw [hv2] at h2p
        cases hd : jlookup kvs2 ("data") with
        | none => simp [producesTable, hd]
        | some d =>
          cases hf : jlookup kvs2 ("fields") with
          | none => simp [producesTable, hd, hf]
          | some f =>
            exfalso
            apply h2p
            simp [hd, hf]
      | null => simp [producesTable]
      | bool b => simp [producesTable]
      | num q => simp [producesTable]
      | str s => simp [producesTable]
      | arr xs => simp [producesTable]
    simp [fetch_twse_table, htop, hnest]
  · intro t ht
    have hobj : ∃ kvs, js = Json.obj kvs := by
      cases js with
      | obj kvs => exact ⟨kvs, rfl⟩
      | null => simp [producesTable] at ht
      | bool b => simp [producesTable] at ht
      | num q => simp [producesTable] at ht
      | str s => simp [producesTable] at ht
      | arr xs => simp [producesTable] at ht
    rcases hobj with ⟨kvs, hjs⟩
    subst hjs
    simp [fetch_twse_table, ht]
  · intro kvs l1 k v l2 t hjs hsplit htop hl1 hv2
    subst hjs
    subst hsplit
    have hfs : (l1 ++ (k, v) :: l2).findSome? (fun p => producesTable p.2)
        = some t := by
      rw [List.findSome?_append]
      have h1 : l1.findSome? (fun p => producesTable p.2) = none :=
        List.findSome?_eq_none_iff.2 (fun p hp => hl1 p hp)
      rw [h1]
      simp [List.findSome?_cons, hv2]
    simp [fetch_twse_table, htop, hfs]

/-- C6 witness: a keyless mapping produces the failure message; the
no-pair hypothesis is discharged concretely. -/
theorem fetch_twse_table_envelope_amended_witness :
    hasCandidatePair (Json.obj [("stat", Json.str ("OK"))]) = false ∧
    fetch_twse_table (Json.obj [("stat", Json.str ("OK"))])
      = .ok (.failMsg schemaMsg) :=
  ⟨rfl, (fetch_twse_table_envelope_amended
    (Json.obj [("stat", Json.str ("OK"))])).2.1 _ rfl rfl⟩

/-! ### Universe Builder claims -/

/-- For finite volumes the descending order reads as expected: `a` may
precede `b` iff the value of `b` is at most the value of `a`. -/
theorem volDescLe_finite (p q : Q) :
    volDescLe (.finite p) (.finite q) ↔ Q.le q p := by
  unfold volDescLe
  rw [show volRank (.finite p) = 1 from rfl, show volRank (.finite q) = 1 from rfl,
    show volKeyQ (.finite p) = p.neg from rfl, show volKeyQ (.finite q) = q.neg from rfl]
  constructor
  · rintro (h | ⟨-, h⟩)
    · omega
    · rw [Q.le_iff_val] at h ⊢
      rw [Q.val_neg, Q.val_neg] at h
      linarith
  · intro h
    refine Or.inr ⟨rfl, ?_⟩
    rw [Q.le_iff_val] at h ⊢
    rw [Q.val_neg, Q.val_neg]
    linarith

/-- The sort key order of C2 that every realization of the library sort
respects, together with the bound and the exclusion invariant: for any
realization producing a key-sorted permutation, the emitted universe
has at most 300 members, is pairwise descending by share volume, holds
no denylisted name, and every member derives from a post-exclusion row.
The tie order among equal volumes is exactly what this theorem does not
fix — the source delegates it to the default (unstable) quicksort, so
the stable-tie-break clause of the spec is not derivable. -/
theorem universe_tie_insensitive_props
    (sortFn : List (Nat × NRow) → List (Nat × NRow))
    (hp : ∀ l, (sortFn l).Perm l)
    (hs : ∀ l, (sortFn l).Pairwise (fun a b => volDescLe a.2.vol b.2.vol))
    (t : RawTable) (w : Bool) (u : List Instrument)
    (h : extract_top300_with sortFn t w = .ok (.uni u)) :
    u.length ≤ 300 ∧
    u.Pairwise (fun a b => volDescLe a.volume_shares b.volume_shares) ∧
    (∀ inst ∈ u, ∀ kw ∈ exclude_name_keywords, containsSub inst.name kw = false) ∧
    (∀ inst ∈ u, ∃ p : Nat × NRow,
      (postExclusion t)[p.1]? = some p.2 ∧ inst = mkInstrument p) := by
  unfold extract_top300_with at h
  cases hres : resolveCols (t.fields.map pyStrip) with
  | none => rw [hres] at h; simp at h
  | some ix =>
    rw [hres] at h
    cases w with
    | true => simp at h
    | false =>
      have h2 : Except.ok (ε := Unit) (ExtractResult.uni
          (((sortFn ((t.rows.map (toNRow ix)).filter keepRow).enum).take 300).map
              mkInstrument)) = Except.ok (ExtractResult.uni u) := h
      have h3 := ExtractResult.uni.inj (Except.ok.inj h2)
      subst h3
      set kept := (t.rows.map (toNRow ix)).filter keepRow with hkept
      set sorted := sortFn kept.enum with hsortdef
      set ranked := sorted.take 300 with hrankdef
      have htake : ranked.Pairwise (fun a b => volDescLe a.2.vol b.2.vol) :=
        List.Pairwise.sublist (List.take_sublist 300 sorted) (hs kept.enum)
      have hmem : ∀ p ∈ ranked, p ∈ kept.enum := fun p hpm =>
        ((hp kept.enum).mem_iff).1 ((List.take_sublist 300 sorted).subset hpm)
      have hget : ∀ p ∈ ranked, kept[p.1]? = some p.2 := fun p hpm =>
        List.mem_enum_iff_getElem?.1 (hmem p hpm)
      have hpost : postExclusion t = kept := by
        unfold postExclusion
        rw [hres]
      refine ⟨?_, ?_, ?_, ?_⟩
      · rw [List.length_map, hrankdef, List.length_take]
        omega
      · rw [List.pairwise_map]
        exact htake
      · intro inst hins kw hkw
        rcases List.mem_map.1 hins with ⟨p, hpm, rfl⟩
        have hpk : p.2 ∈ kept := List.getElem?_mem (hget p hpm)
        have hkeep := (List.mem_filter.1 hpk).2
        unfold keepRow at hkeep
        rw [Bool.not_eq_true'] at hkeep
        have hno := List.any_eq_false.1 hkeep kw hkw
        show containsSub p.2.name kw = false
        simpa using hno
      · intro inst hins
        rcases List.mem_map.1 hins with ⟨p, hpm, rfl⟩
        refine ⟨p, ?_, rfl⟩
        rw [hpost]
        exact hget p hpm

/-- The concrete instantiation (`List.insertionSort rowLe`) is an
admissible realization: it permutes its input and sorts it by the key
order. -/
theorem insertionSort_rowLe_admissible :
    (∀ l : List (Nat × NRow), (List.insertionSort rowLe l).Perm l) ∧
    (∀ l : List (Nat × NRow),
      (List.insertionSort rowLe l).Pairwise (fun a b => volDescLe a.2.vol b.2.vol)) := by
  refine ⟨fun l => List.perm_insertionSort rowLe l, fun l => ?_⟩
  have hsort : List.Pairwise rowLe (List.insertionSort rowLe l) :=
    List.sorted_insertionSort rowLe l
  refine hsort.imp ?_
  intro a b hab
  unfold rowLe at hab
  unfold volDescLe
  rcases hab with h1 | ⟨h1, h2⟩
  · exact Or.inl h1
  · refine Or.inr ⟨h1, ?_⟩
    rcases h2 with h2 | ⟨h2, -⟩
    · exact Q.le_iff_val.2 (le_of_lt (Q.lt_iff_val.1 h2))
    · exact Q.le_iff_val.2 (le_of_eq (Q.qeq_iff_val.1 h2))

/-- The tie-insensitive properties, realized by the concrete model. -/
theorem universe_props_realized (t : RawTable) (w : Bool)
    (u : List Instrument) (h : extract_top300 t w = .ok (.uni u)) :
    u.length ≤ 300 ∧
    u.Pairwise (fun a b => volDescLe a.volume_shares b.volume_shares) ∧
    (∀ inst ∈ u, ∀ kw ∈ exclude_name_keywords, containsSub inst.name kw = false) ∧
    (∀ inst ∈ u, ∃ p : Nat × NRow,
      (postExclusion t)[p.1]? = some p.2 ∧ inst = mkInstrument p) :=
  universe_tie_insensitive_props (List.insertionSort rowLe)
    insertionSort_rowLe_admissible.1 insertionSort_rowLe_admissible.2 t w u h

/-- C8: every emitted instrument has `volume_lots` equal to its
`volume_shares` divided by 1000 and rounded to three decimals. -/
theorem volume_lots_derived (t : RawTable) (w : Bool) (u : List Instrument)
    (h : extract_top300 t w = .ok (.uni u)) :
    ∀ inst ∈ u, inst.volume_lots
      = PyFloat.round3 (PyFloat.div inst.volume_shares (.finite ⟨1000, 0⟩)) := by
  unfold extract_top300 extract_top300_with at h
  cases hres : resolveCols (t.fields.map pyStrip) with
  | none => rw [hres] at h; simp at h
  | some ix =>
    rw [hres] at h
    cases w with
    | true => simp at h
    | false =>
      have h2 : Except.ok (ε := Unit) (ExtractResult.uni
          (((List.insertionSort rowLe
            ((t.rows.map (toNRow ix)).filter keepRow).enum).take 300).map
              mkInstrument)) = Except.ok (ExtractResult.uni u) := h
      have h3 := ExtractResult.uni.inj (Except.ok.inj h2)
      subst h3
      intro inst hins
      rcases List.mem_map.1 hins with ⟨p, hp, rfl⟩
      rfl

/-- C8 witness: the derivation holds on the sample universe. -/
theorem volume_lots_derived_witness :
    extract_top300 Wt false = .ok (.uni WU) ∧
    ∀ inst ∈ WU, inst.volume_lots
      = PyFloat.round3 (PyFloat.div inst.volume_shares (.finite ⟨1000, 0⟩)) :=
  ⟨by decide, volume_lots_derived Wt false WU (by decide)⟩
